import Mathlib

/-!
# docker-registry-client: the request layer of `client/client.go`

A shallow embedding of package `client` (`NewClient`, `NewClientTimeout`,
`newHTTPClient`, `doStreamRequest`, `doRequest`, `Catelog`, `Tags`) together
with the parts of the Go standard library whose results the package branches
on: `strings`, `net/url` (`Parse`, `URL.String`), `net/http` (`NewRequest`)
and `encoding/json` (`Unmarshal` into the two response structs).

Conventions.
* A Go `string` / `[]byte` is its byte sequence.  It is represented by a
  `List Char` in which every `Char` stands for the byte with the same code
  (so ASCII text is written as an ordinary literal).
* A Go result pair `(T, error)` is a pair of `Option`s: `none` is `nil`.
* The network is the only source of nondeterminism; it is the explicit
  argument `httpDo`, the behaviour of `(*http.Client).Do`.
-/

/-- A Go string: a sequence of bytes, one `Char` per byte. -/
abbrev GoString := List Char

deriving instance DecidableEq for Except

/-! ## Package `strings` -/

namespace strings

/-- Go `strings.HasPrefix(s, p)`. -/
def HasPrefix : GoString → GoString → Bool
  | _, [] => true
  | [], _ :: _ => false
  | c :: cs, p :: ps => c == p && HasPrefix cs ps

/-- Go `strings.HasSuffix(s, p)`. -/
def HasSuffix (s p : GoString) : Bool := HasPrefix s.reverse p.reverse

/-- Go `strings.Index(s, sub)`; `none` is the result `-1`. -/
def Index : GoString → GoString → Option Nat
  | [], sub => if sub.isEmpty then some 0 else none
  | c :: cs, sub =>
    if HasPrefix (c :: cs) sub then some 0 else (Index cs sub).map (· + 1)

/-- Go `strings.LastIndex(s, sub)`; `none` is the result `-1`. -/
def LastIndex : GoString → GoString → Option Nat
  | [], sub => if sub.isEmpty then some 0 else none
  | c :: cs, sub =>
    match LastIndex cs sub with
    | some i => some (i + 1)
    | none => if HasPrefix (c :: cs) sub then some 0 else none

/-- Go `strings.Contains(s, sub)`, that is `Index(s, sub) >= 0`. -/
def Contains (s sub : GoString) : Bool := (Index s sub).isSome

/-- Go `strings.Cut(s, sep)`: the text before and after the first `sep`. -/
def Cut (s sep : GoString) : GoString × GoString × Bool :=
  match Index s sep with
  | some i => (s.take i, s.drop (i + sep.length), true)
  | none => (s, [], false)

/-- Go `strings.Count(s, sub)` for a one-byte `sub`. -/
def CountByte (s : GoString) (c : Char) : Nat := s.count c

/-- Go `strings.TrimSuffix(s, suffix)`. -/
def TrimSuffix (s suffix : GoString) : GoString :=
  if HasSuffix s suffix then s.take (s.length - suffix.length) else s

/-- Go `strings.ToLower` on ASCII text (the only text it is applied to here,
a URL scheme): `A`..`Z` become `a`..`z`, every other byte is kept. -/
def ToLower (s : GoString) : GoString :=
  s.map fun c => if 65 ≤ c.toNat ∧ c.toNat ≤ 90 then Char.ofNat (c.toNat + 32) else c

end strings

/-! ## Package `net/url` -/

namespace url

/-- The `encoding` modes of `net/url`. -/
inductive encoding
  | encodePath
  | encodePathSegment
  | encodeHost
  | encodeZone
  | encodeUserPassword
  | encodeQueryComponent
  | encodeFragment
deriving DecidableEq, Repr

/-- The reasons for which `url.Parse` fails (the error wrapped by `*url.Error`). -/
inductive ParseErr
  | invalidControlCharacter
  | emptyUrl
  | invalidURIForRequest
  | missingProtocolScheme
  | firstPathSegmentColon
  | escapeError (s : GoString)
  | invalidHostError (s : GoString)
  | missingBracket
  | invalidPort (colonPort : GoString)
  | invalidUserinfo
deriving DecidableEq, Repr

/-- Go `url.Error`; the operation is always `parse` here. -/
structure Error where
  URL : GoString
  Err : ParseErr
deriving DecidableEq, Repr

/-- Go `url.Userinfo`. -/
structure Userinfo where
  username : GoString
  password : GoString
  passwordSet : Bool
deriving DecidableEq, Repr

/-- Go `url.URL`. -/
structure URL where
  Scheme : GoString := []
  Opaque : GoString := []
  User : Option Userinfo := none
  Host : GoString := []
  Path : GoString := []
  RawPath : GoString := []
  OmitHost : Bool := false
  ForceQuery : Bool := false
  RawQuery : GoString := []
  Fragment : GoString := []
  RawFragment : GoString := []
deriving DecidableEq, Repr

def isAlpha (c : Char) : Bool :=
  (97 ≤ c.toNat && c.toNat ≤ 122) || (65 ≤ c.toNat && c.toNat ≤ 90)

def isDigit (c : Char) : Bool := 48 ≤ c.toNat && c.toNat ≤ 57

/-- Go `ishex`. -/
def ishex (c : Char) : Bool :=
  isDigit c || (97 ≤ c.toNat && c.toNat ≤ 102) || (65 ≤ c.toNat && c.toNat ≤ 70)

/-- Go `unhex`. -/
def unhex (c : Char) : Nat :=
  if isDigit c then c.toNat - 48
  else if 97 ≤ c.toNat && c.toNat ≤ 102 then c.toNat - 97 + 10
  else if 65 ≤ c.toNat && c.toNat ≤ 70 then c.toNat - 65 + 10
  else 0

/-- Go `shouldEscape(c, mode)`: whether byte `c` must be written `%XX` in the
given part of a URL. -/
def shouldEscape (c : Char) (mode : encoding) : Bool :=
  if isAlpha c || isDigit c then false
  else if (mode = .encodeHost ∨ mode = .encodeZone) ∧
      c ∈ ['!', '$', '&', Char.ofNat 39, '(', ')', '*', '+', ',', ';', '=', ':', '[', ']',
        '<', '>', Char.ofNat 34] then false
  else if c ∈ ['-', '_', '.', '~'] then false
  else if c ∈ ['$', '&', '+', ',', '/', ':', ';', '=', '?', '@'] ∧
      mode ∈ [encoding.encodePath, .encodePathSegment, .encodeUserPassword,
        .encodeQueryComponent, .encodeFragment] then
    match mode with
    | .encodePath => c == '?'
    | .encodePathSegment => c == '/' || c == ';' || c == ',' || c == '?'
    | .encodeUserPassword => c == '@' || c == '/' || c == '?' || c == ':'
    | .encodeQueryComponent => true
    | _ => false
  else if mode = .encodeFragment ∧ c ∈ ['!', '(', ')', '*'] then false
  else true

/-- The validation loop of Go `unescape`: the first malformed `%` escape or
forbidden host byte, if there is one. -/
def unescapeCheck (mode : encoding) : GoString → Option ParseErr
  | [] => none
  | c :: cs =>
    if c = '%' then
      match cs with
      | h1 :: h2 :: rest =>
        if !ishex h1 || !ishex h2 then some (.escapeError [c, h1, h2])
        else if mode = .encodeHost ∧ unhex h1 < 8 ∧ [c, h1, h2] ≠ ['%', '2', '5'] then
          some (.escapeError [c, h1, h2])
        else if mode = .encodeZone ∧ [c, h1, h2] ≠ ['%', '2', '5'] ∧
            Char.ofNat (unhex h1 * 16 + unhex h2) ≠ ' ' ∧
            shouldEscape (Char.ofNat (unhex h1 * 16 + unhex h2)) .encodeHost then
          some (.escapeError [c, h1, h2])
        else unescapeCheck mode rest
      | short => some (.escapeError (c :: short))
    else if c = '+' then unescapeCheck mode cs
    else if (mode = .encodeHost ∨ mode = .encodeZone) ∧ c.toNat < 128 ∧
        shouldEscape c .encodeHost then
      some (.invalidHostError [c])
    else unescapeCheck mode cs

/-- The rewriting loop of Go `unescape`. -/
def unescapeBuild (mode : encoding) : GoString → GoString
  | [] => []
  | c :: cs =>
    if c = '%' then
      match cs with
      | h1 :: h2 :: rest => Char.ofNat (unhex h1 * 16 + unhex h2) :: unescapeBuild mode rest
      | short => c :: short
    else if c = '+' then
      (if mode = .encodeQueryComponent then ' ' else '+') :: unescapeBuild mode cs
    else c :: unescapeBuild mode cs

/-- Go `unescape(s, mode)`. -/
def unescape (s : GoString) (mode : encoding) : Except ParseErr GoString :=
  match unescapeCheck mode s with
  | some e => .error e
  | none => .ok (unescapeBuild mode s)

/-- The digit `"0123456789ABCDEF"[n]`. -/
def upperhex (n : Nat) : Char :=
  if n % 16 < 10 then Char.ofNat (48 + n % 16) else Char.ofNat (55 + n % 16)

/-- Go `escape(s, mode)`. -/
def escape (s : GoString) (mode : encoding) : GoString :=
  s.flatMap fun c =>
    if c = ' ' ∧ mode = .encodeQueryComponent then ['+']
    else if shouldEscape c mode then ['%', upperhex (c.toNat / 16), upperhex (c.toNat % 16)]
    else [c]

/-- Go `getScheme`, the loop from byte `i` on (`rest` is `rawURL[i:]`). -/
def getSchemeLoop (rawURL : GoString) (i : Nat) :
    GoString → Except ParseErr (GoString × GoString)
  | [] => .ok ([], rawURL)
  | c :: cs =>
    if isAlpha c then getSchemeLoop rawURL (i + 1) cs
    else if isDigit c || c = '+' || c = '-' || c = '.' then
      if i = 0 then .ok ([], rawURL) else getSchemeLoop rawURL (i + 1) cs
    else if c = ':' then
      if i = 0 then .error .missingProtocolScheme
      else .ok (rawURL.take i, rawURL.drop (i + 1))
    else .ok ([], rawURL)

/-- Go `getScheme(rawURL)`: the scheme before the first `:` and what follows
it, or an empty scheme and the whole text. -/
def getScheme (rawURL : GoString) : Except ParseErr (GoString × GoString) :=
  getSchemeLoop rawURL 0 rawURL

/-- Go `stringContainsCTLByte`. -/
def stringContainsCTLByte (s : GoString) : Bool :=
  s.any fun b => b.toNat < 32 || b.toNat = 127

/-- Go `validUserinfo`. -/
def validUserinfo (s : GoString) : Bool :=
  s.all fun r => isAlpha r || isDigit r ||
    r ∈ ['-', '.', '_', ':', '~', '!', '$', '&', Char.ofNat 39, '(', ')', '*', '+', ',',
      ';', '=', '%', '@']

/-- Go `validOptionalPort`: empty, or `:` followed by digits. -/
def validOptionalPort (port : GoString) : Bool :=
  match port with
  | [] => true
  | c :: ds => c = ':' && ds.all isDigit

/-- Go `parseHost`. -/
def parseHost (host : GoString) : Except ParseErr GoString :=
  if strings.HasPrefix host ['['] then
    match strings.LastIndex host [']'] with
    | none => .error .missingBracket
    | some i =>
      if !validOptionalPort (host.drop (i + 1)) then .error (.invalidPort (host.drop (i + 1)))
      else
        match strings.Index (host.take i) ['%', '2', '5'] with
        | some zone =>
          match unescape (host.take zone) .encodeHost with
          | .error e => .error e
          | .ok host1 =>
            match unescape ((host.take i).drop zone) .encodeZone with
            | .error e => .error e
            | .ok host2 =>
              match unescape (host.drop i) .encodeHost with
              | .error e => .error e
              | .ok host3 => .ok (host1 ++ host2 ++ host3)
        | none => unescape host .encodeHost
  else
    match strings.LastIndex host [':'] with
    | some i =>
      if !validOptionalPort (host.drop i) then .error (.invalidPort (host.drop i))
      else unescape host .encodeHost
    | none => unescape host .encodeHost

/-- Go `parseAuthority`: `[userinfo@]host`. -/
def parseAuthority (authority : GoString) : Except ParseErr (Option Userinfo × GoString) :=
  match strings.LastIndex authority ['@'] with
  | none =>
    match parseHost authority with
    | .error e => .error e
    | .ok host => .ok (none, host)
  | some i =>
    match parseHost (authority.drop (i + 1)) with
    | .error e => .error e
    | .ok host =>
      if !validUserinfo (authority.take i) then .error .invalidUserinfo
      else if !strings.Contains (authority.take i) [':'] then
        match unescape (authority.take i) .encodeUserPassword with
        | .error e => .error e
        | .ok username => .ok (some ⟨username, [], false⟩, host)
      else
        match unescape (strings.Cut (authority.take i) [':']).1 .encodeUserPassword with
        | .error e => .error e
        | .ok username =>
          match unescape (strings.Cut (authority.take i) [':']).2.1 .encodeUserPassword with
          | .error e => .error e
          | .ok password => .ok (some ⟨username, password, true⟩, host)

/-- Go `(*URL).setPath`. -/
def URL.setPath (u : URL) (p : GoString) : Except ParseErr URL :=
  match unescape p .encodePath with
  | .error e => .error e
  | .ok path =>
    .ok { u with Path := path, RawPath := if p = escape path .encodePath then [] else p }

/-- Go `(*URL).setFragment`. -/
def URL.setFragment (u : URL) (f : GoString) : Except ParseErr URL :=
  match unescape f .encodeFragment with
  | .error e => .error e
  | .ok frag =>
    .ok { u with Fragment := frag,
                 RawFragment := if f = escape frag .encodeFragment then [] else f }

/-- Go `parse(rawURL, viaRequest)`: a URL without its fragment. -/
def parse (rawURL : GoString) (viaRequest : Bool) : Except ParseErr URL :=
  if stringContainsCTLByte rawURL then .error .invalidControlCharacter
  else if rawURL = [] ∧ viaRequest then .error .emptyUrl
  else if rawURL = ['*'] then .ok { Path := ['*'] }
  else
    match getScheme rawURL with
    | .error e => .error e
    | .ok (scheme, rest0) =>
      let url : URL := { Scheme := strings.ToLower scheme }
      let forceQuery : Bool := strings.HasSuffix rest0 ['?'] && strings.CountByte rest0 '?' = 1
      let rest : GoString :=
        if forceQuery then rest0.take (rest0.length - 1) else (strings.Cut rest0 ['?']).1
      let url : URL :=
        if forceQuery then { url with ForceQuery := true }
        else { url with RawQuery := (strings.Cut rest0 ['?']).2.1 }
      if !strings.HasPrefix rest ['/'] ∧ url.Scheme ≠ [] then .ok { url with Opaque := rest }
      else if !strings.HasPrefix rest ['/'] ∧ viaRequest then .error .invalidURIForRequest
      else if !strings.HasPrefix rest ['/'] ∧
          strings.Contains (strings.Cut rest ['/']).1 [':'] then .error .firstPathSegmentColon
      else if (url.Scheme ≠ [] ∨ (!viaRequest ∧ !strings.HasPrefix rest ['/', '/', '/'])) ∧
          strings.HasPrefix rest ['/', '/'] then
        let authority : GoString := (strings.Cut (rest.drop 2) ['/']).1
        let rest : GoString := (rest.drop 2).drop authority.length
        match parseAuthority authority with
        | .error e => .error e
        | .ok (user, host) => URL.setPath { url with User := user, Host := host } rest
      else if url.Scheme ≠ [] ∧ strings.HasPrefix rest ['/'] then
        URL.setPath { url with OmitHost := true } rest
      else URL.setPath url rest

/-- Go `url.Parse(rawURL)`. -/
def Parse (rawURL : GoString) : Except Error URL :=
  match parse (strings.Cut rawURL ['#']).1 false with
  | .error e => .error ⟨(strings.Cut rawURL ['#']).1, e⟩
  | .ok url =>
    if (strings.Cut rawURL ['#']).2.1 = [] then .ok url
    else
      match URL.setFragment url (strings.Cut rawURL ['#']).2.1 with
      | .error e => .error ⟨rawURL, e⟩
      | .ok url => .ok url

/-- Go `validEncoded`. -/
def validEncoded (s : GoString) (mode : encoding) : Bool :=
  s.all fun c =>
    c ∈ ['!', '$', '&', Char.ofNat 39, '(', ')', '*', '+', ',', ';', '=', ':', '@', '[', ']',
      '%'] || !shouldEscape c mode

/-- Go `(*URL).EscapedPath`. -/
def URL.EscapedPath (u : URL) : GoString :=
  if u.RawPath ≠ [] ∧ validEncoded u.RawPath .encodePath ∧
      unescape u.RawPath .encodePath = .ok u.Path then u.RawPath
  else if u.Path = ['*'] then ['*']
  else escape u.Path .encodePath

/-- Go `(*URL).EscapedFragment`. -/
def URL.EscapedFragment (u : URL) : GoString :=
  if u.RawFragment ≠ [] ∧ validEncoded u.RawFragment .encodeFragment ∧
      unescape u.RawFragment .encodeFragment = .ok u.Fragment then u.RawFragment
  else escape u.Fragment .encodeFragment

/-- Go `(*Userinfo).String`. -/
def Userinfo.String (ui : Userinfo) : GoString :=
  escape ui.username .encodeUserPassword ++
    (if ui.passwordSet then ':' :: escape ui.password .encodeUserPassword else [])

/-- Go `(*URL).String`: the URL reassembled into text. -/
def URL.String (u : URL) : GoString :=
  let buf : GoString := if u.Scheme ≠ [] then u.Scheme ++ [':'] else []
  let buf : GoString :=
    if u.Opaque ≠ [] then buf ++ u.Opaque
    else
      let buf : GoString :=
        if u.Scheme ≠ [] ∨ u.Host ≠ [] ∨ u.User ≠ none then
          if u.OmitHost ∧ u.Host = [] ∧ u.User = none then buf
          else
            let buf : GoString :=
              if u.Host ≠ [] ∨ u.Path ≠ [] ∨ u.User ≠ none then buf ++ ['/', '/'] else buf
            let buf : GoString :=
              match u.User with
              | some ui => buf ++ ui.String ++ ['@']
              | none => buf
            if u.Host ≠ [] then buf ++ escape u.Host .encodeHost else buf
        else buf
      let path : GoString := u.EscapedPath
      let buf : GoString :=
        if path ≠ [] ∧ path.head? ≠ some '/' ∧ u.Host ≠ [] then buf ++ ['/'] else buf
      let buf : GoString :=
        if buf = [] ∧ strings.Contains (strings.Cut path ['/']).1 [':'] then buf ++ ['.', '/']
        else buf
      buf ++ path
  let buf : GoString :=
    if u.ForceQuery ∨ u.RawQuery ≠ [] then buf ++ ['?'] ++ u.RawQuery else buf
  if u.Fragment ≠ [] then buf ++ ['#'] ++ u.EscapedFragment else buf

end url

/-! ## Package `encoding/json` -/

namespace json

/-- A JSON text after scanning: strings are held decoded (unquoted), numbers
as their literal. -/
inductive Value
  | null
  | bool (b : Bool)
  | number (lit : GoString)
  | string (s : GoString)
  | array (elems : List Value)
  | object (members : List (GoString × Value))
deriving Repr

/-- The errors of `json.Unmarshal`: a `*json.SyntaxError` (message and offset
are not modelled) or a `*json.UnmarshalTypeError` (the JSON kind found and
the Go type it was to be stored in). -/
inductive Err
  | syntaxError
  | unmarshalTypeError (value : GoString) (goType : GoString)
deriving DecidableEq, Repr

/-- Go `maxNestingDepth` of the scanner. -/
def maxNestingDepth : Nat := 10000

def quote : Char := Char.ofNat 34

def backslash : Char := Char.ofNat 92

/-- Go `isSpace` of the scanner. -/
def isSpace (c : Char) : Bool := c = ' ' || c = '\t' || c = '\r' || c = '\n'

def skipSpace : GoString → GoString
  | [] => []
  | c :: cs => if isSpace c then skipSpace cs else c :: cs

def isDigit (c : Char) : Bool := 48 ≤ c.toNat && c.toNat ≤ 57

def isHex (c : Char) : Bool :=
  isDigit c || (97 ≤ c.toNat && c.toNat ≤ 102) || (65 ≤ c.toNat && c.toNat ≤ 70)

def hexVal (c : Char) : Nat :=
  if isDigit c then c.toNat - 48
  else if 97 ≤ c.toNat && c.toNat ≤ 102 then c.toNat - 87
  else c.toNat - 55

/-- Go `getu4` on four hexadecimal digits. -/
def getu4 (h1 h2 h3 h4 : Char) : Nat :=
  ((hexVal h1 * 16 + hexVal h2) * 16 + hexVal h3) * 16 + hexVal h4

/-- Go `utf8.AppendRune`: the UTF-8 bytes of rune `r` (`U+FFFD` for a
surrogate or a value past `U+10FFFF`). -/
def appendRune (r : Nat) : GoString :=
  if r < 0x80 then [Char.ofNat r]
  else if r < 0x800 then [Char.ofNat (0xC0 + r / 64), Char.ofNat (0x80 + r % 64)]
  else if (0xD800 ≤ r ∧ r ≤ 0xDFFF) ∨ 0x10FFFF < r then
    [Char.ofNat 0xEF, Char.ofNat 0xBF, Char.ofNat 0xBD]
  else if r < 0x10000 then
    [Char.ofNat (0xE0 + r / 4096), Char.ofNat (0x80 + r / 64 % 64), Char.ofNat (0x80 + r % 64)]
  else
    [Char.ofNat (0xF0 + r / 262144), Char.ofNat (0x80 + r / 4096 % 64),
      Char.ofNat (0x80 + r / 64 % 64), Char.ofNat (0x80 + r % 64)]

def isCont (c : Char) : Bool := 0x80 ≤ c.toNat && c.toNat ≤ 0xBF

/-- The size that Go `utf8.DecodeRune` reports for a well-formed encoding at
the head of `s`, and `0` where it reports `(RuneError, 1)` for a malformed one. -/
def utf8SeqLen (s : GoString) : Nat :=
  match s with
  | [] => 0
  | b0 :: rest =>
    if b0.toNat < 0x80 then 1
    else if 0xC2 ≤ b0.toNat ∧ b0.toNat ≤ 0xDF then
      match rest with
      | b1 :: _ => if isCont b1 then 2 else 0
      | _ => 0
    else if 0xE0 ≤ b0.toNat ∧ b0.toNat ≤ 0xEF then
      match rest with
      | b1 :: b2 :: _ =>
        if (if b0.toNat = 0xE0 then 0xA0 else 0x80) ≤ b1.toNat ∧
            b1.toNat ≤ (if b0.toNat = 0xED then 0x9F else 0xBF) ∧ isCont b2 then 3 else 0
      | _ => 0
    else if 0xF0 ≤ b0.toNat ∧ b0.toNat ≤ 0xF4 then
      match rest with
      | b1 :: b2 :: b3 :: _ =>
        if (if b0.toNat = 0xF0 then 0x90 else 0x80) ≤ b1.toNat ∧
            b1.toNat ≤ (if b0.toNat = 0xF4 then 0x8F else 0xBF) ∧ isCont b2 ∧ isCont b3 then 4
        else 0
      | _ => 0
    else 0

/-- Go `utf16.DecodeRune` on the code units of two `\u` escapes. -/
def decodeSurrogates (r1 r2 : Nat) : Option Nat :=
  if 0xD800 ≤ r1 ∧ r1 < 0xDC00 ∧ 0xDC00 ≤ r2 ∧ r2 < 0xE000 then
    some ((r1 - 0xD800) * 1024 + (r2 - 0xDC00) + 0x10000)
  else none

/-- The second half of a surrogate pair: when `s` starts with a `\uXXXX`
escape that completes the code unit `r1`, the rune of the pair. -/
def pairedEscape (r1 : Nat) (s : GoString) : Option Nat :=
  match s with
  | b :: u :: g1 :: g2 :: g3 :: g4 :: _ =>
    if b = backslash ∧ u = 'u' ∧ isHex g1 ∧ isHex g2 ∧ isHex g3 ∧ isHex g4 then
      decodeSurrogates r1 (getu4 g1 g2 g3 g4)
    else none
  | _ => none

/-- A string literal after its opening quote: the scanner states
`stateInString`, `stateInStringEsc`, `stateInStringEscU...` together with
`unquote` (escapes resolved, malformed UTF-8 coerced to `U+FFFD`).  `skip`
counts the bytes still to pass over of an escape or encoding already decoded.
Returns the decoded bytes and the number of bytes read, closing quote included. -/
def scanString : Nat → GoString → Except Err (GoString × Nat)
  | _, [] => .error .syntaxError
  | skip, c :: cs =>
    let emit (bytes : GoString) (skip : Nat) : Except Err (GoString × Nat) :=
      match scanString skip cs with
      | .error e => .error e
      | .ok (out, n) => .ok (bytes ++ out, n + 1)
    if 0 < skip then emit [] (skip - 1)
    else if c = quote then .ok ([], 1)
    else if c = backslash then
      match cs with
      | [] => .error .syntaxError
      | e :: cs1 =>
        if e = 'u' then
          match cs1 with
          | h1 :: h2 :: h3 :: h4 :: cs2 =>
            if isHex h1 ∧ isHex h2 ∧ isHex h3 ∧ isHex h4 then
              match pairedEscape (getu4 h1 h2 h3 h4) cs2 with
              | some r => emit (appendRune r) 11
              | none => emit (appendRune (getu4 h1 h2 h3 h4)) 5
            else .error .syntaxError
          | _ => .error .syntaxError
        else if e = quote ∨ e = backslash ∨ e = '/' then emit [e] 1
        else if e = 'b' then emit [Char.ofNat 8] 1
        else if e = 'f' then emit [Char.ofNat 12] 1
        else if e = 'n' then emit [Char.ofNat 10] 1
        else if e = 'r' then emit [Char.ofNat 13] 1
        else if e = 't' then emit [Char.ofNat 9] 1
        else .error .syntaxError
    else if c.toNat < 0x20 then .error .syntaxError
    else if c.toNat < 0x80 then emit [c] 0
    else if utf8SeqLen (c :: cs) = 0 then emit (appendRune 0xFFFD) 0
    else emit ((c :: cs).take (utf8SeqLen (c :: cs))) (utf8SeqLen (c :: cs) - 1)

/-- The exponent part of a number (scanner states `stateE`, `stateESign`, `stateE0`). -/
def scanExponent (acc s : GoString) : Option (GoString × GoString) :=
  match s with
  | e :: t =>
    if e = 'e' ∨ e = 'E' then
      let sign : GoString := match t with
        | '+' :: _ => ['+']
        | '-' :: _ => ['-']
        | _ => []
      let digits := (t.drop sign.length).span isDigit
      if digits.1 = [] then none else some (acc ++ e :: sign ++ digits.1, digits.2)
    else some (acc, s)
  | [] => some (acc, [])

/-- The fraction part of a number (scanner states `stateDot`, `stateDot0`). -/
def scanFraction (acc s : GoString) : Option (GoString × GoString) :=
  match s with
  | '.' :: t =>
    if (t.span isDigit).1 = [] then none
    else scanExponent (acc ++ '.' :: (t.span isDigit).1) (t.span isDigit).2
  | _ => scanExponent acc s

/-- A number literal (scanner states `stateNeg`, `state0`, `state1`, ...): the
literal and the text after it. -/
def scanNumber (s : GoString) : Option (GoString × GoString) :=
  let neg : GoString := match s with
    | '-' :: _ => ['-']
    | _ => []
  match s.drop neg.length with
  | [] => none
  | d :: t =>
    if d = '0' then scanFraction (neg ++ ['0']) t
    else if isDigit d then scanFraction (neg ++ d :: (t.span isDigit).1) (t.span isDigit).2
    else none

/-- What the scanner expects between two tokens. -/
inductive Expect
  /-- A value must start: at top level, after `:`, after `,` in an array. -/
  | value
  /-- After `[`: a value or `]`. -/
  | valueOrEnd
  /-- After the opening brace: a key or the closing brace. -/
  | keyOrEnd
  /-- After `,` in an object: a key. -/
  | key
  /-- After a key: `:`. -/
  | colon
  /-- After a value: `,`, the closing bracket, or the end of the input. -/
  | next
deriving DecidableEq, Repr

/-- An array or object that is open (the scanner's `parseState` stack, with
what the decoder has read of it, last first). -/
inductive Frame
  | array (elems : List Value)
  | object (members : List (GoString × Value)) (key : GoString)

/-- The state of a scan: the bytes still to pass over of the token just read,
what is expected next, the open arrays and objects (innermost first) and the
top-level value once it is complete. -/
structure State where
  skip : Nat
  expect : Expect
  stack : List Frame
  done : Option Value

/-- A value is complete: it becomes the top-level value, the next element of
the innermost array or the value of the pending key of the innermost object. -/
def State.complete (v : Value) (skip : Nat) (stack : List Frame) : State :=
  match stack with
  | [] => ⟨skip, .next, [], some v⟩
  | .array elems :: rest => ⟨skip, .next, .array (v :: elems) :: rest, none⟩
  | .object members key :: rest => ⟨skip, .next, .object ((key, v) :: members) [] :: rest, none⟩

/-- The start of a value at byte `c`, followed by `cs`. -/
def State.beginValue (stack : List Frame) (c : Char) (cs : GoString) : Except Err State :=
  if c = '{' then
    if maxNestingDepth < stack.length + 1 then .error .syntaxError
    else .ok ⟨0, .keyOrEnd, .object [] [] :: stack, none⟩
  else if c = '[' then
    if maxNestingDepth < stack.length + 1 then .error .syntaxError
    else .ok ⟨0, .valueOrEnd, .array [] :: stack, none⟩
  else if c = quote then
    match scanString 0 cs with
    | .error e => .error e
    | .ok (str, n) => .ok (State.complete (.string str) n stack)
  else if c = '-' ∨ isDigit c then
    match scanNumber (c :: cs) with
    | none => .error .syntaxError
    | some (lit, _) => .ok (State.complete (.number lit) (lit.length - 1) stack)
  else if strings.HasPrefix (c :: cs) ['t', 'r', 'u', 'e'] then
    .ok (State.complete (.bool true) 3 stack)
  else if strings.HasPrefix (c :: cs) ['f', 'a', 'l', 's', 'e'] then
    .ok (State.complete (.bool false) 4 stack)
  else if strings.HasPrefix (c :: cs) ['n', 'u', 'l', 'l'] then
    .ok (State.complete .null 3 stack)
  else .error .syntaxError

/-- The start of an object key at byte `c`, followed by `cs`. -/
def State.beginKey (stack : List Frame) (c : Char) (cs : GoString) : Except Err State :=
  match stack with
  | .object members _ :: rest =>
    if c = quote then
      match scanString 0 cs with
      | .error e => .error e
      | .ok (key, n) => .ok ⟨n, .colon, .object members key :: rest, none⟩
    else .error .syntaxError
  | _ => .error .syntaxError

/-- One step of the scanner on byte `c`, followed by `cs`, outside a token. -/
def State.step (st : State) (c : Char) (cs : GoString) : Except Err State :=
  if isSpace c then .ok st
  else
    match st.expect with
    | .value => State.beginValue st.stack c cs
    | .valueOrEnd =>
      if c = ']' then
        match st.stack with
        | .array _ :: rest => .ok (State.complete (.array []) 0 rest)
        | _ => .error .syntaxError
      else State.beginValue st.stack c cs
    | .keyOrEnd =>
      if c = '}' then
        match st.stack with
        | .object _ _ :: rest => .ok (State.complete (.object []) 0 rest)
        | _ => .error .syntaxError
      else State.beginKey st.stack c cs
    | .key => State.beginKey st.stack c cs
    | .colon => if c = ':' then .ok { st with expect := .value } else .error .syntaxError
    | .next =>
      match st.stack with
      | [] => .error .syntaxError
      | .array elems :: rest =>
        if c = ',' then .ok { st with expect := .value }
        else if c = ']' then .ok (State.complete (.array elems.reverse) 0 rest)
        else .error .syntaxError
      | .object members _ :: rest =>
        if c = ',' then .ok { st with expect := .key }
        else if c = '}' then .ok (State.complete (.object members.reverse) 0 rest)
        else .error .syntaxError

/-- The scanner's loop over the input. -/
def State.run (st : State) : GoString → Except Err Value
  | [] =>
    match st.done with
    | some v => .ok v
    | none => .error .syntaxError
  | c :: cs =>
    if 0 < st.skip then State.run { st with skip := st.skip - 1 } cs
    else
      match st.step c cs with
      | .error e => .error e
      | .ok st1 => State.run st1 cs

/-- The scan of a whole input (Go `checkValid` followed by the decoder's
walk): one value, surrounded by optional white space and nothing else. -/
def scan (data : GoString) : Except Err Value :=
  State.run ⟨0, .value, [], none⟩ data

/-- Go `foldName`, as far as it decides whether an object key matches an
ASCII field name: ASCII letters are upper-cased, and the two non-ASCII runes
whose case orbit holds an ASCII letter, `U+017F` and `U+212A`, become `S` and
`K`.  (Every other rune folds to a non-ASCII rune and is kept as it is.)
`skip` counts the bytes still to pass over of a rune already folded. -/
def foldNameFrom : Nat → GoString → GoString
  | _, [] => []
  | skip, c :: cs =>
    if 0 < skip then foldNameFrom (skip - 1) cs
    else if 97 ≤ c.toNat ∧ c.toNat ≤ 122 then Char.ofNat (c.toNat - 32) :: foldNameFrom 0 cs
    else if strings.HasPrefix (c :: cs) [Char.ofNat 0xC5, Char.ofNat 0xBF] then
      'S' :: foldNameFrom 1 cs
    else if strings.HasPrefix (c :: cs) [Char.ofNat 0xE2, Char.ofNat 0x84, Char.ofNat 0xAA] then
      'K' :: foldNameFrom 2 cs
    else c :: foldNameFrom 0 cs

@[inherit_doc foldNameFrom]
def foldName (name : GoString) : GoString := foldNameFrom 0 name

/-- The field that an object key selects among the (ASCII) JSON names of a
struct's fields: the one with exactly that name, else the first one equal to
it under case folding. -/
def findField (names : List GoString) (key : GoString) : Option Nat :=
  match names.findIdx? (· = key) with
  | some i => some i
  | none => names.findIdx? (foldName · = foldName key)

/-- Go `d.saveError`: only the first error of a decode is kept. -/
def saveError (saved : Option Err) (e : Option Err) : Option Err :=
  match saved with
  | some s => some s
  | none => e

/-- Decoding a JSON value into a Go `string` that currently holds `cur`. -/
def decodeString (v : Value) (cur : GoString) : GoString × Option Err :=
  match v with
  | .string s => (s, none)
  | .null => (cur, none)
  | .bool _ => (cur, some (.unmarshalTypeError "bool".toList "string".toList))
  | .number _ => (cur, some (.unmarshalTypeError "number".toList "string".toList))
  | .array _ => (cur, some (.unmarshalTypeError "array".toList "string".toList))
  | .object _ => (cur, some (.unmarshalTypeError "object".toList "string".toList))

/-- The element loop of the decoder's `array` on a `[]string`: element `i`
is decoded into `cur[i]`, or into a fresh empty string past the end of `cur`. -/
def decodeElems : List Value → List GoString → List GoString × Option Err
  | [], _ => ([], none)
  | v :: vs, cur =>
    let head := decodeString v (cur.headD [])
    let tail := decodeElems vs cur.tail
    (head.1 :: tail.1, saveError head.2 tail.2)

/-- Decoding a JSON value into a Go `[]string` that currently holds `cur`
(a `nil` slice and an empty one are both `[]`). -/
def decodeStringSlice (v : Value) (cur : List GoString) : List GoString × Option Err :=
  match v with
  | .array elems => decodeElems elems cur
  | .null => ([], none)
  | .bool _ => (cur, some (.unmarshalTypeError "bool".toList "[]string".toList))
  | .number _ => (cur, some (.unmarshalTypeError "number".toList "[]string".toList))
  | .string _ => (cur, some (.unmarshalTypeError "string".toList "[]string".toList))
  | .object _ => (cur, some (.unmarshalTypeError "object".toList "[]string".toList))

end json

/-! ## Go values shared by the packages below -/

/-- Go `tls.Config`.  The package only compares a `*tls.Config` with `nil`
and hands it on, so none of its fields is modelled. -/
structure tls.Config where
deriving DecidableEq, Repr

/-- A call `net.DialTimeout(network, address, timeout)`; `timeout` is a
`time.Duration`, in nanoseconds. -/
structure net.DialCall where
  network : GoString
  address : GoString
  timeout : Int
deriving DecidableEq, Repr

/-- The `error` values that reach the callers of package `client`. -/
inductive GoError
  /-- The package variable `ErrNotFound = errors.New("Not found")`. -/
  | ErrNotFound
  /-- The non-nil error of `(*http.Client).Do` (always a `*url.Error`, never
  a value of this package), with its `Error()` text. -/
  | transport (msg : GoString)
  /-- A fresh error made by `fmt.Errorf`, with its text. -/
  | errorf (msg : GoString)
  /-- The error of `http.NewRequest` for a method that is not a token. -/
  | invalidMethod (method : GoString)
  /-- The `*url.Error` of `url.Parse`. -/
  | urlError (err : url.Error)
  /-- An error of `Read` on a response body, with its text. -/
  | readError (msg : GoString)
  /-- An error of `json.Unmarshal`. -/
  | jsonError (err : json.Err)
deriving DecidableEq, Repr

/-! ## Package `net/http` -/

namespace http

/-- Go `http.Transport`, the fields set by `newHTTPClient`.  `Dial` is the
installed dial function, given by the `net.DialTimeout` call it makes. -/
structure Transport where
  TLSClientConfig : Option tls.Config
  Dial : GoString → GoString → net.DialCall

/-- Go `http.Client`. -/
structure Client where
  Transport : Transport

/-- Go `http.Request` as `http.NewRequest` builds it.  `Header` is the list
of `Header.Add(key, value)` calls made on it, in order; `Body` is the content
of the reader given as body (`none` for a `nil` reader). -/
structure Request where
  Method : GoString
  URL : url.URL
  Header : List (GoString × GoString)
  Body : Option GoString
  Host : GoString
deriving DecidableEq, Repr

/-- Go `Header.Add` on the request's header. -/
def Request.HeaderAdd (req : Request) (key value : GoString) : Request :=
  { req with Header := req.Header ++ [(key, value)] }

/-- A response body stream: the bytes it yields and, when reading it fails
after them, the text of the read error. -/
structure Body where
  data : GoString
  readErr : Option GoString
deriving DecidableEq, Repr

/-- Go `http.Response`, the fields the package reads. -/
structure Response where
  StatusCode : Int
  Body : Body
deriving DecidableEq, Repr

/-- Go `httpguts.IsTokenRune`: the bytes allowed in a method name. -/
def isToken (c : Char) : Bool :=
  url.isAlpha c || url.isDigit c ||
    c ∈ ['!', '#', '$', '%', '&', Char.ofNat 39, '*', '+', '-', '.', '^', '_', Char.ofNat 96,
      '|', '~']

/-- Go `validMethod`. -/
def validMethod (method : GoString) : Bool := method ≠ [] && method.all isToken

/-- The Go integer of an index result, `-1` for "not found". -/
def indexInt (i : Option Nat) : Int :=
  match i with
  | some n => n
  | none => -1

/-- Go `hasPort`. -/
def hasPort (s : GoString) : Bool :=
  indexInt (strings.LastIndex s [':']) > indexInt (strings.LastIndex s [']'])

/-- Go `removeEmptyPort`. -/
def removeEmptyPort (host : GoString) : GoString :=
  if hasPort host then strings.TrimSuffix host [':'] else host

/-- Go `http.NewRequest(method, url, body)`. -/
def NewRequest (method rawURL : GoString) (body : Option GoString) : Except GoError Request :=
  let method : GoString := if method = [] then "GET".toList else method
  if !validMethod method then .error (.invalidMethod method)
  else
    match url.Parse rawURL with
    | .error e => .error (.urlError e)
    | .ok u =>
      .ok { Method := method, URL := { u with Host := removeEmptyPort u.Host }, Header := [],
            Body := body, Host := removeEmptyPort u.Host }

end http

/-- The behaviour of `(*http.Client).Do` on a request: a response, or the
`Error()` text of the transport-level error it reports. -/
abbrev HTTPDo := http.Client → http.Request → Except GoString http.Response

/-! ## Package `client` -/

namespace client

/-- Go `APIVERSION`. -/
def APIVERSION : GoString := "v2".toList

/-- Go `defaultTimeout = 30 * time.Second`, in nanoseconds. -/
def defaultTimeout : Int := 30 * 1000000000

set_option linter.dupNamespace false in
/-- Go `Repositories` (`types.go`). -/
structure Repositories where
  Repositories : List GoString
deriving DecidableEq, Repr

set_option linter.dupNamespace false in
/-- Go `Tags` (`types.go`). -/
structure Tags where
  Name : GoString
  Tags : List GoString
deriving DecidableEq, Repr

/-- Go `Client`. -/
structure Client where
  URL : url.URL
  HTTPClient : http.Client
  TLSConfig : Option tls.Config

/-- What a call did to the outside world, in order. -/
inductive Effect
  /-- The request was handed to `HTTPClient.Do`. -/
  | send (req : http.Request)
  /-- `Close` was called on a response body. -/
  | close (body : http.Body)
deriving DecidableEq, Repr

/-- How a Go call ends: it returns, or it panics. -/
inductive Exec (α : Type)
  | returned (a : α)
  | panicked (reason : GoString)
deriving DecidableEq, Repr

/-- A finished call: its effects and how it ended. -/
structure Run (α : Type) where
  effects : List Effect
  out : Exec α

/-- Go `newHTTPClient(u, tlsConfig, timeout)`.  The URL is passed by pointer
and rewritten in place for scheme `unix`, so it is returned with the client. -/
def newHTTPClient (u : url.URL) (tlsConfig : Option tls.Config) (timeout : Int) :
    url.URL × http.Client :=
  if u.Scheme = "unix".toList then
    ({ u with Scheme := "http".toList, Host := "unix.sock".toList, Path := [] },
     { Transport := { TLSClientConfig := tlsConfig,
                      Dial := fun _proto _addr => ⟨"unix".toList, u.Path, timeout⟩ } })
  else
    (u, { Transport := { TLSClientConfig := tlsConfig,
                         Dial := fun proto addr => ⟨proto, addr, timeout⟩ } })

/-- Go `NewClientTimeout(rawUrl, tlsConfig, timeout)`. -/
def NewClientTimeout (rawUrl : GoString) (tlsConfig : Option tls.Config) (timeout : Int) :
    Option Client × Option GoError :=
  match url.Parse rawUrl with
  | .error e => (none, some (.urlError e))
  | .ok u =>
    let u : url.URL :=
      if u.Scheme = [] ∨ u.Scheme = "tcp".toList then
        if tlsConfig = none then { u with Scheme := "http".toList }
        else { u with Scheme := "https".toList }
      else u
    let built := newHTTPClient u tlsConfig timeout
    (some ⟨built.1, built.2, tlsConfig⟩, none)

/-- Go `NewClient(rawUrl, tlsConfig)`. -/
def NewClient (rawUrl : GoString) (tlsConfig : Option tls.Config) :
    Option Client × Option GoError :=
  NewClientTimeout rawUrl tlsConfig defaultTimeout

/-- The result of `doStreamRequest`: the two returned values and the effects. -/
structure StreamResult where
  reader : Option http.Body
  err : Option GoError
  effects : List Effect
deriving DecidableEq, Repr

/-- The request that `doStreamRequest` builds before sending it (lines
100-112): an empty body for a `POST` or `PUT` without one, the target URL
`client.URL.String() + path`, the `Content-Type` header, then the caller's
headers.  `headers` is the map as the list of its entries in the order the
`range` loop visits them. -/
def Client.buildRequest (c : Client) (method path : GoString) (in_ : Option GoString)
    (headers : Option (List (GoString × GoString))) : Except GoError http.Request :=
  let in_ : Option GoString :=
    if (method = "POST".toList ∨ method = "PUT".toList) ∧ in_ = none then some [] else in_
  match http.NewRequest method (c.URL.String ++ path) in_ with
  | .error err => .error err
  | .ok req =>
    .ok ((headers.getD []).foldl (fun r kv => r.HeaderAdd kv.1 kv.2)
      (req.HeaderAdd "Content-Type".toList "application/json".toList))

/-- Go `(*Client).doStreamRequest(method, path, in, headers)`. -/
def Client.doStreamRequest (httpDo : HTTPDo) (c : Client) (method path : GoString)
    (in_ : Option GoString) (headers : Option (List (GoString × GoString))) : StreamResult :=
  match c.buildRequest method path in_ headers with
  | .error err => ⟨none, some err, []⟩
  | .ok req =>
    match httpDo c.HTTPClient req with
    | .error msg =>
      if !strings.Contains msg "connection refused".toList ∧ c.TLSConfig = none then
        ⟨none, some (.errorf (msg ++
          ". Are you trying to connect to a TLS-enabled daemon without TLS?".toList)),
          [.send req]⟩
      else ⟨none, some (.transport msg), [.send req]⟩
    | .ok resp =>
      if resp.StatusCode = 404 then ⟨none, some .ErrNotFound, [.send req]⟩
      else if resp.StatusCode ≥ 400 then
        -- `return nil, err`: `err` is the nil error of the successful `Do`
        ⟨none, none, [.send req, .close resp.Body]⟩
      else ⟨some resp.Body, none, [.send req]⟩

/-- Go `(*Client).doRequest(method, path, body, headers)`. -/
def Client.doRequest (httpDo : HTTPDo) (c : Client) (method path : GoString)
    (body : Option GoString) (headers : Option (List (GoString × GoString))) :
    Run (Option GoString × Option GoError) :=
  -- `bytes.NewBuffer(body)` is a non-nil reader, also for a nil `body`
  let r := c.doStreamRequest httpDo method path (some (body.getD [])) headers
  match r.err with
  | some err => ⟨r.effects, .returned (none, some err)⟩
  | none =>
    match r.reader with
    | none =>
      -- `defer reader.Close()` on a nil interface value
      ⟨r.effects, .panicked "invalid memory address or nil pointer dereference".toList⟩
    | some reader =>
      match reader.readErr with
      | some msg => ⟨r.effects ++ [.close reader], .returned (none, some (.readError msg))⟩
      | none => ⟨r.effects ++ [.close reader], .returned (some reader.data, none)⟩

/-- Go `json.Unmarshal(data, &repositories)` for a `Repositories`: the struct
after the call and the returned error.  The tag `json:repositories` is not a
well-formed struct tag, so the field goes by its Go name. -/
def unmarshalRepositories (data : GoString) (cur : client.Repositories) :
    client.Repositories × Option json.Err :=
  match json.scan data with
  | .error e => (cur, some e)
  | .ok (.object members) =>
    members.foldl (fun (acc : client.Repositories × Option json.Err) kv =>
      match json.findField ["Repositories".toList] kv.1 with
      | some _ =>
        let d := json.decodeStringSlice kv.2 acc.1.Repositories
        ({ Repositories := d.1 }, json.saveError acc.2 d.2)
      | none => acc) (cur, none)
  | .ok .null => (cur, none)
  | .ok (.array _) =>
    (cur, some (.unmarshalTypeError "array".toList "client.Repositories".toList))
  | .ok (.string _) =>
    (cur, some (.unmarshalTypeError "string".toList "client.Repositories".toList))
  | .ok (.number _) =>
    (cur, some (.unmarshalTypeError "number".toList "client.Repositories".toList))
  | .ok (.bool _) =>
    (cur, some (.unmarshalTypeError "bool".toList "client.Repositories".toList))

/-- Go `json.Unmarshal(data, &tags)` for a `Tags`; the fields go by their Go
names `Name` and `Tags`, as for `Repositories`. -/
def unmarshalTags (data : GoString) (cur : client.Tags) : client.Tags × Option json.Err :=
  match json.scan data with
  | .error e => (cur, some e)
  | .ok (.object members) =>
    members.foldl (fun (acc : client.Tags × Option json.Err) kv =>
      match json.findField ["Name".toList, "Tags".toList] kv.1 with
      | some 0 =>
        let d := json.decodeString kv.2 acc.1.Name
        ({ acc.1 with Name := d.1 }, json.saveError acc.2 d.2)
      | some _ =>
        let d := json.decodeStringSlice kv.2 acc.1.Tags
        ({ acc.1 with Tags := d.1 }, json.saveError acc.2 d.2)
      | none => acc) (cur, none)
  | .ok .null => (cur, none)
  | .ok (.array _) => (cur, some (.unmarshalTypeError "array".toList "client.Tags".toList))
  | .ok (.string _) => (cur, some (.unmarshalTypeError "string".toList "client.Tags".toList))
  | .ok (.number _) => (cur, some (.unmarshalTypeError "number".toList "client.Tags".toList))
  | .ok (.bool _) => (cur, some (.unmarshalTypeError "bool".toList "client.Tags".toList))

/-- Go `(*Client).Catelog()`. -/
def Client.Catelog (httpDo : HTTPDo) (c : Client) :
    Run (Option client.Repositories × Option GoError) :=
  let uri : GoString := "/".toList ++ APIVERSION ++ "/_catalog".toList
  let r := c.doRequest httpDo "GET".toList uri none none
  match r.out with
  | .panicked reason => ⟨r.effects, .panicked reason⟩
  | .returned (_, some err) => ⟨r.effects, .returned (none, some err)⟩
  | .returned (data, none) =>
    match unmarshalRepositories (data.getD []) ⟨[]⟩ with
    | (_, some err) => ⟨r.effects, .returned (none, some (.jsonError err))⟩
    | (repositories, none) => ⟨r.effects, .returned (some repositories, none)⟩

/-- Go `(*Client).Tags(name)`. -/
def Client.Tags (httpDo : HTTPDo) (c : Client) (name : GoString) :
    Run (Option client.Tags × Option GoError) :=
  let uri : GoString := "/".toList ++ APIVERSION ++ "/".toList ++ name ++ "/tags/list".toList
  let r := c.doRequest httpDo "GET".toList uri none none
  match r.out with
  | .panicked reason => ⟨r.effects, .panicked reason⟩
  | .returned (_, some err) => ⟨r.effects, .returned (none, some err)⟩
  | .returned (data, none) =>
    match unmarshalTags (data.getD []) ⟨[], []⟩ with
    | (_, some err) => ⟨r.effects, .returned (none, some (.jsonError err))⟩
    | (tags, none) => ⟨r.effects, .returned (some tags, none)⟩

end client

/-! ## Concrete inputs used below -/

/-- The client that `NewClient("tcp://registry.example.com:5000", nil)` returns. -/
def registryClient : client.Client :=
  { URL := { Scheme := "http".toList, Host := "registry.example.com:5000".toList },
    HTTPClient := (client.newHTTPClient {} none client.defaultTimeout).2,
    TLSConfig := none }

/-- A server that answers every request with the given status and body. -/
def answering (status : Int) (body : GoString) : HTTPDo :=
  fun _ _ => .ok ⟨status, ⟨body, none⟩⟩

/-- A network on which every request fails with the given error text. -/
def failing (msg : GoString) : HTTPDo := fun _ _ => .error msg

/-- The request that `registryClient` builds for `GET /v2/_catalog` with the
empty body that `doRequest` passes. -/
def catalogRequest : http.Request :=
  { Method := "GET".toList,
    URL := { Scheme := "http".toList, Host := "registry.example.com:5000".toList,
             Path := "/v2/_catalog".toList },
    Header := [("Content-Type".toList, "application/json".toList)],
    Body := some [],
    Host := "registry.example.com:5000".toList }

/-- The request that `registryClient` builds for `GET /v2/a/tags/list`. -/
def tagsRequest : http.Request :=
  { catalogRequest with
    URL := { Scheme := "http".toList, Host := "registry.example.com:5000".toList,
             Path := "/v2/a/tags/list".toList } }

/-- The response body `{"repositories":["a","b"]}`. -/
def catalogBody : GoString := "\x7b\"repositories\":[\"a\",\"b\"]\x7d".toList

/-- The response body `{"name":"a","tags":["1.0","2.0"]}`. -/
def tagsBody : GoString := "\x7b\"name\":\"a\",\"tags\":[\"1.0\",\"2.0\"]\x7d".toList

/-- The requests handed to the HTTP client among the effects of a call. -/
def sent : List client.Effect → List http.Request
  | [] => []
  | .send req :: rest => req :: sent rest
  | .close _ :: rest => sent rest

/-! ## The request executor: `doStreamRequest` -/

/-- The errors of `http.NewRequest` are its own: never the sentinel. -/
theorem NewRequest_error_ne_ErrNotFound (method rawURL : GoString) (body : Option GoString)
    (e : GoError) (h : http.NewRequest method rawURL body = .error e) :
    e ≠ .ErrNotFound := by
  unfold http.NewRequest at h
  simp only at h
  generalize (if method = [] then "GET".toList else method) = m at h
  by_cases hv : http.validMethod m = true
  · cases hp : url.Parse rawURL with
    | error pe =>
      simp only [hv, hp, Bool.not_true, Bool.false_eq_true, if_false, Except.error.injEq] at h
      subst h
      simp
    | ok u => simp [hv, hp] at h
  · simp only [Bool.not_eq_true] at hv
    simp only [hv, Bool.not_false, if_true, Except.error.injEq] at h
    subst h
    simp

/-- The errors of building the request are those of `http.NewRequest`. -/
theorem buildRequest_error_ne_ErrNotFound (c : client.Client) (method path : GoString)
    (in_ : Option GoString) (headers : Option (List (GoString × GoString))) (e : GoError)
    (h : c.buildRequest method path in_ headers = .error e) : e ≠ .ErrNotFound := by
  unfold client.Client.buildRequest at h
  simp only at h
  split at h
  · rename_i e2 hnew
    cases h
    exact NewRequest_error_ne_ErrNotFound _ _ _ _ hnew
  · cases h

/-- C1 (as the code behaves): for every response whose status is at least 400
and is not 404, `doStreamRequest` returns a nil stream together with a NIL
error, because the `err` it returns is the nil error of the successful `Do`. -/
theorem doStreamRequest_failure_status_returns_nil_error (httpDo : HTTPDo) (c : client.Client)
    (method path : GoString) (in_ : Option GoString)
    (headers : Option (List (GoString × GoString))) (req : http.Request)
    (resp : http.Response)
    (hreq : c.buildRequest method path in_ headers = .ok req)
    (hdo : httpDo c.HTTPClient req = .ok resp)
    (h400 : 400 ≤ resp.StatusCode) (h404 : resp.StatusCode ≠ 404) :
    (c.doStreamRequest httpDo method path in_ headers).reader = none ∧
      (c.doStreamRequest httpDo method path in_ headers).err = none := by
  have h : resp.StatusCode ≥ 400 := h400
  simp [client.Client.doStreamRequest, hreq, hdo, h404, h]

/-- C1, failing input: the catalog request answered with status 500 yields
`(nil, nil)`, no error at all. -/
theorem doStreamRequest_status_500_returns_nil_error :
    (registryClient.doStreamRequest (answering 500 []) "GET".toList "/v2/_catalog".toList
        (some []) none).reader = none ∧
      (registryClient.doStreamRequest (answering 500 []) "GET".toList "/v2/_catalog".toList
        (some []) none).err = none :=
  doStreamRequest_failure_status_returns_nil_error (answering 500 []) registryClient
    "GET".toList "/v2/_catalog".toList (some []) none catalogRequest
    ⟨500, ⟨[], none⟩⟩ (by decide) rfl (by decide) (by decide)

/-- C2: a response with status 404 makes `doStreamRequest` return a nil stream
and exactly `ErrNotFound`, whatever the method, path, body, headers and TLS
configuration; and `ErrNotFound` is returned only then: whenever it is
returned, a request was sent and answered with status 404 (so it is returned
for no other status and for no transport-level failure). -/
theorem doStreamRequest_ErrNotFound_iff_status_404 (httpDo : HTTPDo) (c : client.Client)
    (method path : GoString) (in_ : Option GoString)
    (headers : Option (List (GoString × GoString))) :
    (∀ req resp, c.buildRequest method path in_ headers = .ok req →
        httpDo c.HTTPClient req = .ok resp → resp.StatusCode = 404 →
        (c.doStreamRequest httpDo method path in_ headers).reader = none ∧
        (c.doStreamRequest httpDo method path in_ headers).err = some .ErrNotFound) ∧
    ((c.doStreamRequest httpDo method path in_ headers).err = some .ErrNotFound →
      ∃ req resp, c.buildRequest method path in_ headers = .ok req ∧
        httpDo c.HTTPClient req = .ok resp ∧ resp.StatusCode = 404) := by
  constructor
  · intro req resp hreq hdo h404
    simp [client.Client.doStreamRequest, hreq, hdo, h404]
  · intro h
    cases hreq : c.buildRequest method path in_ headers with
    | error e =>
      simp only [client.Client.doStreamRequest, hreq, Option.some.injEq] at h
      exact absurd h (buildRequest_error_ne_ErrNotFound c method path in_ headers e hreq)
    | ok req =>
      cases hdo : httpDo c.HTTPClient req with
      | error msg =>
        simp only [client.Client.doStreamRequest, hreq, hdo] at h
        split at h <;> simp at h
      | ok resp =>
        simp only [client.Client.doStreamRequest, hreq, hdo] at h
        refine ⟨req, resp, rfl, hdo, ?_⟩
        by_cases h404 : resp.StatusCode = 404
        · exact h404
        · rw [if_neg h404] at h
          split at h <;> simp at h

/-- C2 at a concrete input: the catalog request answered with status 404. -/
theorem doStreamRequest_status_404_witness :
    (registryClient.doStreamRequest (answering 404 []) "GET".toList "/v2/_catalog".toList
        (some []) none).reader = none ∧
      (registryClient.doStreamRequest (answering 404 []) "GET".toList "/v2/_catalog".toList
        (some []) none).err = some .ErrNotFound :=
  (doStreamRequest_ErrNotFound_iff_status_404 (answering 404 []) registryClient "GET".toList
    "/v2/_catalog".toList (some []) none).1 catalogRequest ⟨404, ⟨[], none⟩⟩ (by decide) rfl rfl

/-- C3: when the HTTP client reports a transport-level failure with text `m`,
`doStreamRequest` returns no stream, and its error is the TLS-mismatch error
(`m` followed by the hint) exactly when `m` does not contain
`connection refused` and the client has no TLS configuration; in every other
case it is the original error, unchanged. -/
theorem doStreamRequest_transport_failure (httpDo : HTTPDo) (c : client.Client)
    (method path : GoString) (in_ : Option GoString)
    (headers : Option (List (GoString × GoString))) (req : http.Request) (m : GoString)
    (hreq : c.buildRequest method path in_ headers = .ok req)
    (hdo : httpDo c.HTTPClient req = .error m) :
    (c.doStreamRequest httpDo method path in_ headers).reader = none ∧
    ((c.doStreamRequest httpDo method path in_ headers).err =
        some (.errorf (m ++
          ". Are you trying to connect to a TLS-enabled daemon without TLS?".toList)) ↔
      (strings.Contains m "connection refused".toList = false ∧ c.TLSConfig = none)) ∧
    (¬ (strings.Contains m "connection refused".toList = false ∧ c.TLSConfig = none) →
      (c.doStreamRequest httpDo method path in_ headers).err = some (.transport m)) := by
  by_cases hc : strings.Contains m "connection refused".toList = false ∧ c.TLSConfig = none
  · have hc1 : (!strings.Contains m "connection refused".toList) = true ∧
        c.TLSConfig = none := by
      refine ⟨?_, hc.2⟩
      rw [hc.1]
      rfl
    simp only [client.Client.doStreamRequest, hreq, hdo, if_pos hc1]
    exact ⟨trivial, ⟨fun _ => hc, fun _ => trivial⟩, fun hn => absurd hc hn⟩
  · have hc2 : ¬ ((!strings.Contains m "connection refused".toList) = true ∧
        c.TLSConfig = none) := by simpa using hc
    simp only [client.Client.doStreamRequest, hreq, hdo, if_neg hc2]
    refine ⟨trivial, ⟨fun h => ?_, fun h => absurd h hc⟩, fun _ => trivial⟩
    simp at h

/-- C3 at concrete inputs: without TLS a timeout is reported with the TLS
hint, and a refused connection is reported as it came. -/
theorem doStreamRequest_transport_failure_witness :
    ((registryClient.doStreamRequest (failing "dial tcp: i/o timeout".toList) "GET".toList
          "/v2/_catalog".toList (some []) none).err =
        some (.errorf ("dial tcp: i/o timeout".toList ++
          ". Are you trying to connect to a TLS-enabled daemon without TLS?".toList)) ↔
      (strings.Contains "dial tcp: i/o timeout".toList "connection refused".toList = false ∧
        registryClient.TLSConfig = none)) ∧
    (registryClient.doStreamRequest (failing "dial tcp: connection refused".toList)
        "GET".toList "/v2/_catalog".toList (some []) none).err =
      some (.transport "dial tcp: connection refused".toList) :=
  ⟨(doStreamRequest_transport_failure (failing "dial tcp: i/o timeout".toList) registryClient
      "GET".toList "/v2/_catalog".toList (some []) none catalogRequest
      "dial tcp: i/o timeout".toList (by decide) rfl).2.1,
   (doStreamRequest_transport_failure (failing "dial tcp: connection refused".toList)
      registryClient "GET".toList "/v2/_catalog".toList (some []) none catalogRequest
      "dial tcp: connection refused".toList (by decide) rfl).2.2 (by decide)⟩

/-! ## The endpoint resolver and the transport builder -/

/-- C4: when the connection string parses with an empty scheme or with scheme
`tcp`, `NewClientTimeout` succeeds with a client whose URL scheme is `https`
exactly when a TLS configuration was supplied and `http` otherwise, every
other component of the parsed URL (host and path among them) being left as
parsed; when it parses with scheme `http` or `https`, the client's URL is the
parsed one, scheme included, whatever the TLS configuration. -/
theorem NewClientTimeout_scheme_resolution (rawUrl : GoString) (tlsConfig : Option tls.Config)
    (timeout : Int) (u : url.URL) (hparse : url.Parse rawUrl = .ok u) :
    ((u.Scheme = [] ∨ u.Scheme = "tcp".toList) →
      ∃ c, client.NewClientTimeout rawUrl tlsConfig timeout = (some c, none) ∧
        (c.URL.Scheme = "https".toList ↔ tlsConfig ≠ none) ∧
        (tlsConfig = none → c.URL.Scheme = "http".toList) ∧
        c.URL.Host = u.Host ∧ c.URL.Path = u.Path ∧
        c.URL = { u with Scheme := c.URL.Scheme }) ∧
    ((u.Scheme = "http".toList ∨ u.Scheme = "https".toList) →
      ∃ c, client.NewClientTimeout rawUrl tlsConfig timeout = (some c, none) ∧
        c.URL.Scheme = u.Scheme ∧ c.URL = u) := by
  constructor
  · intro hs
    cases tlsConfig with
    | none =>
      refine ⟨⟨{ u with Scheme := "http".toList },
        (client.newHTTPClient { u with Scheme := "http".toList } none timeout).2, none⟩,
        ?_, ?_, ?_, rfl, rfl, rfl⟩
      · simp only [client.NewClientTimeout, hparse, if_pos hs, if_true]
        have hne : ¬ ("http".toList = "unix".toList) := by decide
        simp only [client.newHTTPClient, if_neg hne]
      · have hne : ¬ ("http".toList = "https".toList) := by decide
        constructor
        · intro h
          exact absurd h hne
        · intro h
          exact absurd rfl h
      · intro _
        rfl
    | some cfg =>
      refine ⟨⟨{ u with Scheme := "https".toList },
        (client.newHTTPClient { u with Scheme := "https".toList } (some cfg) timeout).2,
        some cfg⟩, ?_, ?_, ?_, rfl, rfl, rfl⟩
      · have hcfg : ¬ (some cfg = (none : Option tls.Config)) := by simp
        simp only [client.NewClientTimeout, hparse, if_pos hs, if_neg hcfg]
        have hne : ¬ ("https".toList = "unix".toList) := by decide
        simp only [client.newHTTPClient, if_neg hne]
      · constructor
        · intro _
          simp
        · intro _
          rfl
      · intro h
        cases h
  · intro hs
    have h1 : ¬ (u.Scheme = [] ∨ u.Scheme = "tcp".toList) := by
      rcases hs with h | h <;> rw [h] <;> decide
    have h2 : ¬ (u.Scheme = "unix".toList) := by
      rcases hs with h | h <;> rw [h] <;> decide
    refine ⟨⟨u, (client.newHTTPClient u tlsConfig timeout).2, tlsConfig⟩, ?_, rfl, rfl⟩
    simp only [client.NewClientTimeout, hparse, if_neg h1]
    simp only [client.newHTTPClient, if_neg h2]

/-- C4 at concrete inputs: `tcp://registry.example.com:5000` resolves to
`http` without a TLS configuration and to `https` with one, and
`https://registry.example.com` keeps its scheme without one. -/
theorem NewClientTimeout_scheme_resolution_witness :
    (∃ c, client.NewClientTimeout "tcp://registry.example.com:5000".toList none 5 =
        (some c, none) ∧
      (c.URL.Scheme = "https".toList ↔ (none : Option tls.Config) ≠ none) ∧
      ((none : Option tls.Config) = none → c.URL.Scheme = "http".toList) ∧
      c.URL.Host = "registry.example.com:5000".toList ∧ c.URL.Path = [] ∧
      c.URL = { ({ Scheme := "tcp".toList,
                   Host := "registry.example.com:5000".toList } : url.URL) with
                Scheme := c.URL.Scheme }) ∧
    (∃ c, client.NewClientTimeout "tcp://registry.example.com:5000".toList (some {}) 5 =
        (some c, none) ∧
      (c.URL.Scheme = "https".toList ↔ (some {} : Option tls.Config) ≠ none) ∧
      ((some {} : Option tls.Config) = none → c.URL.Scheme = "http".toList) ∧
      c.URL.Host = "registry.example.com:5000".toList ∧ c.URL.Path = [] ∧
      c.URL = { ({ Scheme := "tcp".toList,
                   Host := "registry.example.com:5000".toList } : url.URL) with
                Scheme := c.URL.Scheme }) ∧
    (∃ c, client.NewClientTimeout "https://registry.example.com".toList none 5 =
        (some c, none) ∧
      c.URL.Scheme = "https".toList ∧
      c.URL = { Scheme := "https".toList, Host := "registry.example.com".toList }) :=
  ⟨(NewClientTimeout_scheme_resolution "tcp://registry.example.com:5000".toList none 5
      { Scheme := "tcp".toList, Host := "registry.example.com:5000".toList }
      (by decide)).1 (Or.inr rfl),
   (NewClientTimeout_scheme_resolution "tcp://registry.example.com:5000".toList (some {}) 5
      { Scheme := "tcp".toList, Host := "registry.example.com:5000".toList }
      (by decide)).1 (Or.inr rfl),
   (NewClientTimeout_scheme_resolution "https://registry.example.com".toList none 5
      { Scheme := "https".toList, Host := "registry.example.com".toList }
      (by decide)).2 (Or.inr rfl)⟩

/-- C10, failing input: `NewClient("registry.example.com:5000", nil)` succeeds,
but `url.Parse` reads the text before the colon as the scheme: the client's
URL has scheme `registry.example.com`, an empty host and the opaque part
`5000`, its base address is `registry.example.com:5000` without any `http://`,
and the catalog request is built against that address. -/
theorem NewClient_host_port_read_as_scheme :
    (client.NewClient "registry.example.com:5000".toList none).2 = none ∧
    (client.NewClient "registry.example.com:5000".toList none).1.map (fun c => c.URL) =
      some { Scheme := "registry.example.com".toList, Opaque := "5000".toList } ∧
    (client.NewClient "registry.example.com:5000".toList none).1.map
        (fun c => c.URL.String) = some "registry.example.com:5000".toList ∧
    (client.NewClient "registry.example.com:5000".toList none).1.map
        (fun c => (sent (c.Catelog (answering 200 [])).effects).map (fun r => r.URL)) =
      some [{ Scheme := "registry.example.com".toList,
              Opaque := "5000/v2/_catalog".toList }] := by
  decide

/-- Unescaping never turns a non-empty text into the empty one. -/
theorem unescapeBuild_eq_nil (mode : url.encoding) (s : GoString)
    (h : url.unescapeBuild mode s = []) : s = [] := by
  cases s with
  | nil => rfl
  | cons c cs =>
    unfold url.unescapeBuild at h
    split at h
    · split at h <;> simp at h
    · split at h <;> simp at h

/-- A URL whose path is empty has an empty escaped path, whatever its `RawPath`. -/
theorem EscapedPath_of_empty_Path (u : url.URL) (h : u.Path = []) : u.EscapedPath = [] := by
  have hraw : ¬ (u.RawPath ≠ [] ∧ url.validEncoded u.RawPath .encodePath = true ∧
      url.unescape u.RawPath .encodePath = .ok u.Path) := by
    rintro ⟨hne, _, hun⟩
    apply hne
    unfold url.unescape at hun
    split at hun
    · cases hun
    · rw [h] at hun
      simp only [Except.ok.injEq] at hun
      exact unescapeBuild_eq_nil _ _ hun
  have hstar : ¬ (u.Path = ['*']) := by
    rw [h]
    decide
  unfold url.URL.EscapedPath
  rw [if_neg hraw, if_neg hstar, h]
  rfl

/-- The text of a URL made of scheme `http` and host `unix.sock` alone. -/
theorem String_unix_sock (v : url.URL) (hs : v.Scheme = "http".toList)
    (hh : v.Host = "unix.sock".toList) (hp : v.Path = []) (hop : v.Opaque = [])
    (husr : v.User = none) (hfq : v.ForceQuery = false) (hrq : v.RawQuery = [])
    (hfr : v.Fragment = []) : v.String = "http://unix.sock".toList := by
  have hesc : url.escape "unix.sock".toList .encodeHost = "unix.sock".toList := by decide
  have hE := EscapedPath_of_empty_Path v hp
  simp only [url.URL.String, hE, hs, hh, hp, hop, husr, hfq, hrq, hfr, hesc]
  simp

/-- C5 (as amended): when the connection string parses with scheme `unix` and
path `p`, `NewClientTimeout` succeeds; the installed dial function ignores
its `(proto, addr)` arguments and dials network `unix` at exactly `p` with the
configured timeout; the client's URL is the parsed one with scheme `http`,
host `unix.sock` and an empty path, its other components kept as parsed; and
the base address is `http://unix.sock` whenever the parsed URL has no opaque
part, user information, query or fragment. -/
theorem NewClientTimeout_unix_socket (rawUrl : GoString) (tlsConfig : Option tls.Config)
    (timeout : Int) (u : url.URL) (hparse : url.Parse rawUrl = .ok u)
    (hscheme : u.Scheme = "unix".toList) :
    ∃ c, client.NewClientTimeout rawUrl tlsConfig timeout = (some c, none) ∧
      (∀ proto addr, c.HTTPClient.Transport.Dial proto addr =
        ⟨"unix".toList, u.Path, timeout⟩) ∧
      c.URL = { u with Scheme := "http".toList, Host := "unix.sock".toList, Path := [] } ∧
      (u.Opaque = [] → u.User = none → u.ForceQuery = false → u.RawQuery = [] →
        u.Fragment = [] → c.URL.String = "http://unix.sock".toList) := by
  have h1 : ¬ (u.Scheme = [] ∨ u.Scheme = "tcp".toList) := by
    rw [hscheme]
    decide
  refine ⟨⟨{ u with Scheme := "http".toList, Host := "unix.sock".toList, Path := [] },
    (client.newHTTPClient u tlsConfig timeout).2, tlsConfig⟩, ?_, ?_, rfl, ?_⟩
  · simp only [client.NewClientTimeout, hparse, if_neg h1]
    simp only [client.newHTTPClient, if_pos hscheme]
  · intro proto addr
    simp only [client.newHTTPClient, if_pos hscheme]
  · intro hop husr hfq hrq hfr
    exact String_unix_sock _ rfl rfl rfl hop husr hfq hrq hfr

/-- C5 at a concrete input: `unix:///var/run/docker.sock`. -/
theorem NewClientTimeout_unix_socket_witness :
    ∃ c, client.NewClientTimeout "unix:///var/run/docker.sock".toList none 5 = (some c, none) ∧
      (∀ proto addr, c.HTTPClient.Transport.Dial proto addr =
        ⟨"unix".toList, "/var/run/docker.sock".toList, 5⟩) ∧
      c.URL = { Scheme := "http".toList, Host := "unix.sock".toList } ∧
      c.URL.String = "http://unix.sock".toList := by
  obtain ⟨c, h1, h2, h3, h4⟩ :=
    NewClientTimeout_unix_socket "unix:///var/run/docker.sock".toList none 5
      { Scheme := "unix".toList, Path := "/var/run/docker.sock".toList } (by decide) rfl
  exact ⟨c, h1, h2, h3, h4 rfl rfl rfl rfl rfl⟩

/-- C5 (as stated) fails: `unix:///var/run/docker.sock?x=1` parses with scheme
`unix` and path `/var/run/docker.sock`, yet the query survives the rewrite and
the base address used for requests is `http://unix.sock?x=1`. -/
theorem unix_socket_base_address_keeps_query :
    url.Parse "unix:///var/run/docker.sock?x=1".toList =
      .ok { Scheme := "unix".toList, Path := "/var/run/docker.sock".toList,
            RawQuery := "x=1".toList } ∧
    (client.NewClientTimeout "unix:///var/run/docker.sock?x=1".toList none 5).1.map
        (fun c => c.URL.String) = some "http://unix.sock?x=1".toList ∧
    ¬ ∀ (rawUrl : GoString) (tlsConfig : Option tls.Config) (timeout : Int) (u : url.URL),
        url.Parse rawUrl = .ok u → u.Scheme = "unix".toList →
        ∃ c, client.NewClientTimeout rawUrl tlsConfig timeout = (some c, none) ∧
          (∀ proto addr, c.HTTPClient.Transport.Dial proto addr =
            ⟨"unix".toList, u.Path, timeout⟩) ∧
          c.URL.Scheme = "http".toList ∧ c.URL.Host = "unix.sock".toList ∧ c.URL.Path = [] ∧
          c.URL.String = "http://unix.sock".toList := by
  have heval : (client.NewClientTimeout "unix:///var/run/docker.sock?x=1".toList none 5).1.map
      (fun c => c.URL.String) = some "http://unix.sock?x=1".toList := by decide
  refine ⟨by decide, heval, ?_⟩
  intro h
  obtain ⟨c, hc, _, _, _, _, hstr⟩ := h "unix:///var/run/docker.sock?x=1".toList none 5
    { Scheme := "unix".toList, Path := "/var/run/docker.sock".toList,
      RawQuery := "x=1".toList } (by decide) rfl
  rw [hc] at heval
  simp only [Option.map_some', Option.some.injEq] at heval
  rw [hstr] at heval
  exact absurd heval (by decide)

/-! ## The registry operations: `doRequest`, `Catelog`, `Tags` -/

/-- `registryClient` is the client that `NewClient` builds for
`tcp://registry.example.com:5000` without a TLS configuration. -/
theorem NewClient_registryClient :
    client.NewClient "tcp://registry.example.com:5000".toList none =
      (some registryClient, none) := by
  rfl

/-- The path that `Catelog` formats. -/
theorem catalog_uri :
    "/".toList ++ client.APIVERSION ++ "/_catalog".toList = "/v2/_catalog".toList := by
  decide

/-- The path that `Tags` formats. -/
theorem tags_uri (name : GoString) :
    "/".toList ++ client.APIVERSION ++ "/".toList ++ name ++ "/tags/list".toList =
      "/v2/".toList ++ name ++ "/tags/list".toList := rfl

/-- On a response with a failure status other than 404, `doRequest` receives
`(nil, nil)` from `doStreamRequest` and panics on the nil reader. -/
theorem doRequest_failure_status (httpDo : HTTPDo) (c : client.Client)
    (method path : GoString) (body : Option GoString)
    (headers : Option (List (GoString × GoString))) (req : http.Request)
    (resp : http.Response)
    (hreq : c.buildRequest method path (some (body.getD [])) headers = .ok req)
    (hdo : httpDo c.HTTPClient req = .ok resp)
    (h400 : 400 ≤ resp.StatusCode) (h404 : resp.StatusCode ≠ 404) :
    (c.doRequest httpDo method path body headers).out =
      .panicked "invalid memory address or nil pointer dereference".toList := by
  have h : resp.StatusCode ≥ 400 := h400
  simp only [client.Client.doRequest, client.Client.doStreamRequest, hreq, hdo, if_neg h404,
    if_pos h]

/-- On a response with a status below 400 whose body reads without error,
`doRequest` returns the body's bytes, having sent one request and closed the
body. -/
theorem doRequest_success (httpDo : HTTPDo) (c : client.Client)
    (method path : GoString) (body : Option GoString)
    (headers : Option (List (GoString × GoString))) (req : http.Request)
    (resp : http.Response)
    (hreq : c.buildRequest method path (some (body.getD [])) headers = .ok req)
    (hdo : httpDo c.HTTPClient req = .ok resp)
    (hlt : resp.StatusCode < 400) (hread : resp.Body.readErr = none) :
    c.doRequest httpDo method path body headers =
      ⟨[.send req, .close resp.Body], .returned (some resp.Body.data, none)⟩ := by
  have h404 : ¬ resp.StatusCode = 404 := by omega
  have h400 : ¬ resp.StatusCode ≥ 400 := by omega
  simp only [client.Client.doRequest, client.Client.doStreamRequest, hreq, hdo, if_neg h404,
    if_neg h400, hread]
  rfl

/-- When the request cannot be built, `doRequest` returns that error and
nothing is sent. -/
theorem doRequest_build_error (httpDo : HTTPDo) (c : client.Client)
    (method path : GoString) (body : Option GoString)
    (headers : Option (List (GoString × GoString))) (e : GoError)
    (hreq : c.buildRequest method path (some (body.getD [])) headers = .error e) :
    c.doRequest httpDo method path body headers = ⟨[], .returned (none, some e)⟩ := by
  simp only [client.Client.doRequest, client.Client.doStreamRequest, hreq]

/-- C6 (as the code behaves): when the server answers with a status that is at
least 400 and is not 404, `Catelog` and `Tags` do not return an error: they
panic, on the nil reader that `doStreamRequest` hands back with a nil error. -/
theorem Catelog_Tags_panic_on_failure_status (httpDo : HTTPDo) (c : client.Client)
    (name : GoString) (resp : http.Response)
    (hcat : ∃ req, c.buildRequest "GET".toList "/v2/_catalog".toList (some []) none = .ok req)
    (htags : ∃ req, c.buildRequest "GET".toList
      ("/v2/".toList ++ name ++ "/tags/list".toList) (some []) none = .ok req)
    (hdo : ∀ req, httpDo c.HTTPClient req = .ok resp)
    (h400 : 400 ≤ resp.StatusCode) (h404 : resp.StatusCode ≠ 404) :
    (c.Catelog httpDo).out =
        .panicked "invalid memory address or nil pointer dereference".toList ∧
      (c.Tags httpDo name).out =
        .panicked "invalid memory address or nil pointer dereference".toList := by
  obtain ⟨req1, hreq1⟩ := hcat
  obtain ⟨req2, hreq2⟩ := htags
  constructor
  · have h := doRequest_failure_status httpDo c "GET".toList "/v2/_catalog".toList none none
      req1 resp hreq1 (hdo req1) h400 h404
    simp only [client.Client.Catelog, catalog_uri, h]
  · have h := doRequest_failure_status httpDo c "GET".toList
      ("/v2/".toList ++ name ++ "/tags/list".toList) none none req2 resp hreq2 (hdo req2)
      h400 h404
    simp only [client.Client.Tags, tags_uri, h]

/-- C6, failing input: against a server that answers 500, `Catelog` and
`Tags("a")` panic instead of returning a non-nil error. -/
theorem Catelog_Tags_panic_on_status_500 :
    (registryClient.Catelog (answering 500 [])).out =
        .panicked "invalid memory address or nil pointer dereference".toList ∧
      (registryClient.Tags (answering 500 []) "a".toList).out =
        .panicked "invalid memory address or nil pointer dereference".toList :=
  Catelog_Tags_panic_on_failure_status (answering 500 []) registryClient "a".toList
    ⟨500, ⟨[], none⟩⟩ ⟨catalogRequest, by decide⟩ ⟨tagsRequest, by decide⟩ (fun _ => rfl)
    (by decide) (by decide)

/-- An array of JSON strings decodes into exactly those strings, whatever the
slice held before. -/
theorem decodeElems_strings (L cur : List GoString) :
    json.decodeElems (L.map .string) cur = (L, none) := by
  induction L generalizing cur with
  | nil => rfl
  | cons s rest ih =>
    simp only [List.map_cons, json.decodeElems, ih, json.decodeString, json.saveError]

/-- The key `repositories` selects the field `Repositories`. -/
theorem findField_repositories :
    json.findField ["Repositories".toList] "repositories".toList = some 0 := by
  decide

/-- The key `name` selects the field `Name`. -/
theorem findField_name :
    json.findField ["Name".toList, "Tags".toList] "name".toList = some 0 := by
  decide

/-- The key `tags` selects the field `Tags`. -/
theorem findField_tags :
    json.findField ["Name".toList, "Tags".toList] "tags".toList = some 1 := by
  decide

/-- C7: when the catalog request is answered with status 200 and a body that
scans as the JSON object with the single member `repositories` holding the
array of the strings `L`, `Catelog` returns a nil error and a `Repositories`
whose field is exactly `L`. -/
theorem Catelog_decodes_repositories (httpDo : HTTPDo) (c : client.Client)
    (req : http.Request) (body : GoString) (L : List GoString)
    (hreq : c.buildRequest "GET".toList "/v2/_catalog".toList (some []) none = .ok req)
    (hdo : httpDo c.HTTPClient req = .ok ⟨200, ⟨body, none⟩⟩)
    (hbody : json.scan body =
      .ok (.object [("repositories".toList, .array (L.map .string))])) :
    (c.Catelog httpDo).out = .returned (some ⟨L⟩, none) := by
  have h := doRequest_success httpDo c "GET".toList "/v2/_catalog".toList none none req
    ⟨200, ⟨body, none⟩⟩ hreq hdo (show (200 : Int) < 400 by decide) rfl
  simp only [client.Client.Catelog, catalog_uri, h, Option.getD_some,
    client.unmarshalRepositories, hbody, List.foldl, findField_repositories,
    json.decodeStringSlice, decodeElems_strings, json.saveError]

/-- C7 at the documented input: the body `{"repositories":["a","b"]}` yields
the repository list `["a","b"]`. -/
theorem Catelog_decodes_repositories_witness :
    (registryClient.Catelog (answering 200 catalogBody)).out =
      .returned (some ⟨["a".toList, "b".toList]⟩, none) :=
  Catelog_decodes_repositories (answering 200 catalogBody)
    registryClient catalogRequest catalogBody
    ["a".toList, "b".toList] (by decide) rfl rfl

/-- C8: when the tags request is answered with status 200 and a body that
scans as the JSON object with the members `name`, holding the string `n`, and
`tags`, holding the array of the strings `T` (in either order), `Tags` returns
a nil error and a `Tags` whose `Name` is `n` and whose `Tags` is exactly `T`. -/
theorem Tags_decodes_name_and_tags (httpDo : HTTPDo) (c : client.Client) (name : GoString)
    (req : http.Request) (body n : GoString) (T : List GoString)
    (members : List (GoString × json.Value))
    (hreq : c.buildRequest "GET".toList ("/v2/".toList ++ name ++ "/tags/list".toList)
      (some []) none = .ok req)
    (hdo : httpDo c.HTTPClient req = .ok ⟨200, ⟨body, none⟩⟩)
    (hbody : json.scan body = .ok (.object members))
    (hmembers :
      members = [("name".toList, .string n), ("tags".toList, .array (T.map .string))] ∨
      members = [("tags".toList, .array (T.map .string)), ("name".toList, .string n)]) :
    (c.Tags httpDo name).out = .returned (some ⟨n, T⟩, none) := by
  have h := doRequest_success httpDo c "GET".toList
    ("/v2/".toList ++ name ++ "/tags/list".toList) none none req
    ⟨200, ⟨body, none⟩⟩ hreq hdo (show (200 : Int) < 400 by decide) rfl
  rcases hmembers with hm | hm <;>
    simp only [client.Client.Tags, tags_uri, h, Option.getD_some, client.unmarshalTags, hbody,
      hm, List.foldl, findField_name, findField_tags, json.decodeStringSlice,
      json.decodeString, decodeElems_strings, json.saveError]

/-- C8 at the documented input: the body `{"name":"a","tags":["1.0","2.0"]}`
yields name `a` and tags `["1.0","2.0"]`. -/
theorem Tags_decodes_name_and_tags_witness :
    (registryClient.Tags (answering 200 tagsBody)
        "a".toList).out =
      .returned (some ⟨"a".toList, ["1.0".toList, "2.0".toList]⟩, none) :=
  Tags_decodes_name_and_tags (answering 200 tagsBody)
    registryClient "a".toList tagsRequest tagsBody
    "a".toList ["1.0".toList, "2.0".toList]
    [("name".toList, .string "a".toList),
     ("tags".toList, .array [.string "1.0".toList, .string "2.0".toList])]
    (by decide) rfl rfl (Or.inl rfl)

/-- For a `GET` with the empty body and no caller headers, the request built
is the one of `http.NewRequest` on the concatenated URL, with the
`Content-Type` header added. -/
theorem buildRequest_GET (c : client.Client) (path : GoString) :
    c.buildRequest "GET".toList path (some []) none =
      match http.NewRequest "GET".toList (c.URL.String ++ path) (some []) with
      | .error err => .error err
      | .ok req => .ok (req.HeaderAdd "Content-Type".toList "application/json".toList) := by
  have hm : ¬ (("GET".toList = "POST".toList ∨ "GET".toList = "PUT".toList) ∧
      (some [] : Option GoString) = none) := by decide
  simp only [client.Client.buildRequest, if_neg hm]
  cases http.NewRequest "GET".toList (c.URL.String ++ path) (some []) <;> rfl

/-- Once the request is built, `doRequest` hands it to the HTTP client exactly
once, whatever the outcome of the exchange. -/
theorem sent_doRequest (httpDo : HTTPDo) (c : client.Client) (method path : GoString)
    (body : Option GoString) (headers : Option (List (GoString × GoString)))
    (req : http.Request)
    (hreq : c.buildRequest method path (some (body.getD [])) headers = .ok req) :
    sent (c.doRequest httpDo method path body headers).effects = [req] := by
  simp only [client.Client.doRequest, client.Client.doStreamRequest, hreq]
  cases httpDo c.HTTPClient req with
  | error msg =>
    by_cases hc : (!strings.Contains msg "connection refused".toList) = true ∧
        c.TLSConfig = none
    · simp only [if_pos hc]
      rfl
    · simp only [if_neg hc]
      rfl
  | ok resp =>
    simp only
    by_cases h404 : resp.StatusCode = 404
    · simp only [if_pos h404]
      rfl
    · by_cases h400 : resp.StatusCode ≥ 400
      · simp only [if_neg h404, if_pos h400]
        rfl
      · simp only [if_neg h404, if_neg h400]
        cases resp.Body.readErr <;> rfl

/-- The effects of `Catelog` are those of its `doRequest`. -/
theorem Catelog_effects (httpDo : HTTPDo) (c : client.Client) :
    (c.Catelog httpDo).effects =
      (c.doRequest httpDo "GET".toList "/v2/_catalog".toList none none).effects := by
  simp only [client.Client.Catelog, catalog_uri]
  split
  · rfl
  · rfl
  · split <;> rfl

/-- The effects of `Tags` are those of its `doRequest`. -/
theorem Tags_effects (httpDo : HTTPDo) (c : client.Client) (name : GoString) :
    (c.Tags httpDo name).effects =
      (c.doRequest httpDo "GET".toList ("/v2/".toList ++ name ++ "/tags/list".toList)
        none none).effects := by
  simp only [client.Client.Tags, tags_uri]
  split
  · rfl
  · rfl
  · split <;> rfl

/-- C9 (as amended): `Catelog` and `Tags(n)` make one call
`http.NewRequest("GET", B + path, ...)`, where `B` is the client's base address
string and `path` is `/v2/_catalog`, respectively `/v2/` + `n` + `/tags/list`:
the target URL is the plain concatenation.  When that call accepts the URL,
exactly one request is issued, the one it built (method `GET`) with the
`Content-Type` header added; when it rejects the URL, no request is issued and
its error is returned. -/
theorem Catelog_Tags_issue_one_request (httpDo : HTTPDo) (c : client.Client)
    (name : GoString) :
    (∀ req, http.NewRequest "GET".toList (c.URL.String ++ "/v2/_catalog".toList) (some []) =
        .ok req →
      sent (c.Catelog httpDo).effects =
        [req.HeaderAdd "Content-Type".toList "application/json".toList] ∧
      req.Method = "GET".toList) ∧
    (∀ e, http.NewRequest "GET".toList (c.URL.String ++ "/v2/_catalog".toList) (some []) =
        .error e →
      (c.Catelog httpDo).effects = [] ∧ (c.Catelog httpDo).out = .returned (none, some e)) ∧
    (∀ req, http.NewRequest "GET".toList
        (c.URL.String ++ ("/v2/".toList ++ name ++ "/tags/list".toList)) (some []) = .ok req →
      sent (c.Tags httpDo name).effects =
        [req.HeaderAdd "Content-Type".toList "application/json".toList] ∧
      req.Method = "GET".toList) ∧
    (∀ e, http.NewRequest "GET".toList
        (c.URL.String ++ ("/v2/".toList ++ name ++ "/tags/list".toList)) (some []) =
        .error e →
      (c.Tags httpDo name).effects = [] ∧
      (c.Tags httpDo name).out = .returned (none, some e)) := by
  have hmethod : ∀ (rawURL : GoString) (req : http.Request),
      http.NewRequest "GET".toList rawURL (some []) = .ok req → req.Method = "GET".toList := by
    intro rawURL req h
    have hv : http.validMethod "GET".toList = true := by decide
    have hne : ¬ ("GET".toList = ([] : GoString)) := by decide
    simp only [http.NewRequest, if_neg hne, hv, Bool.not_true, Bool.false_eq_true,
      if_false] at h
    cases hp : url.Parse rawURL with
    | error pe => simp [hp] at h
    | ok u =>
      simp only [hp, Except.ok.injEq] at h
      rw [← h]
  refine ⟨?_, ?_, ?_, ?_⟩
  · intro req h
    have hb := buildRequest_GET c "/v2/_catalog".toList
    rw [h] at hb
    exact ⟨by rw [Catelog_effects]; exact sent_doRequest httpDo c _ _ none none _ hb,
      hmethod _ _ h⟩
  · intro e h
    have hb := buildRequest_GET c "/v2/_catalog".toList
    rw [h] at hb
    have hd := doRequest_build_error httpDo c "GET".toList "/v2/_catalog".toList none none e hb
    simp only [client.Client.Catelog, catalog_uri, hd, and_self]
  · intro req h
    have hb := buildRequest_GET c ("/v2/".toList ++ name ++ "/tags/list".toList)
    rw [h] at hb
    exact ⟨by rw [Tags_effects]; exact sent_doRequest httpDo c _ _ none none _ hb,
      hmethod _ _ h⟩
  · intro e h
    have hb := buildRequest_GET c ("/v2/".toList ++ name ++ "/tags/list".toList)
    rw [h] at hb
    have hd := doRequest_build_error httpDo c "GET".toList
      ("/v2/".toList ++ name ++ "/tags/list".toList) none none e hb
    simp only [client.Client.Tags, tags_uri, hd, and_self]

/-- C9 at concrete inputs: `Catelog` and `Tags("a")` on `registryClient` each
issue exactly the one `GET` request built for their path. -/
theorem Catelog_Tags_issue_one_request_witness :
    (sent (registryClient.Catelog (answering 200 catalogBody)).effects = [catalogRequest] ∧
      catalogRequest.Method = "GET".toList) ∧
    (sent (registryClient.Tags (answering 200 tagsBody) "a".toList).effects = [tagsRequest] ∧
      tagsRequest.Method = "GET".toList) :=
  ⟨(Catelog_Tags_issue_one_request (answering 200 catalogBody) registryClient "a".toList).1
      { catalogRequest with Header := [] } (by decide),
   (Catelog_Tags_issue_one_request (answering 200 tagsBody) registryClient "a".toList).2.2.1
      { tagsRequest with Header := [] } (by decide)⟩

/-- C9 (as stated) fails: for the repository name `%` the URL
`http://registry.example.com:5000/v2/%/tags/list` is rejected by
`http.NewRequest`, so `Tags` returns that error and issues no request at all. -/
theorem Tags_percent_issues_no_request :
    sent (registryClient.Tags (answering 200 []) "%".toList).effects = [] ∧
    (registryClient.Tags (answering 200 []) "%".toList).out =
      .returned (none, some (.urlError ⟨"http://registry.example.com:5000/v2/%/tags/list".toList,
        .escapeError "%/t".toList⟩)) ∧
    ¬ ∀ (httpDo : HTTPDo) (c : client.Client) (name : GoString),
        ∃ req, sent (c.Tags httpDo name).effects = [req] ∧ req.Method = "GET".toList := by
  have h1 : sent (registryClient.Tags (answering 200 []) "%".toList).effects = [] := by decide
  refine ⟨h1, by decide, ?_⟩
  intro h
  obtain ⟨req, hreq, _⟩ := h (answering 200 []) registryClient "%".toList
  rw [h1] at hreq
  cases hreq
